import Mathlib

/-!
Verification of the launchium Chromium profile manager (`main.go` and its
second near-identical file variant).  Go strings are modelled as lists of
characters; Go's `map[string]Profile` is modelled as an association list
with unique keys; each operation below is translated directly from the
corresponding Go function.
-/

set_option autoImplicit false
set_option maxRecDepth 100000

namespace Launchium

/-- A Go string, modelled as its list of characters. -/
abbrev GoStr := List Char

/-- Go's `strings.Split(s, sep)` for a one-character separator: splits `s`
around every occurrence of `sep`; `Split("", sep) = [""]`. -/
def goSplit (sep : Char) : GoStr → List GoStr
  | [] => [[]]
  | c :: cs =>
    if c = sep then [] :: goSplit sep cs
    else
      match goSplit sep cs with
      | [] => [[c]]
      | part :: ps => (c :: part) :: ps

/-- Go's `strings.HasPrefix(s, "#")`: whether `s` begins with the comment
character. -/
def startsWithHash (s : GoStr) : Bool :=
  match s with
  | [] => false
  | c :: _ => c = '#'

/-- `Profile` from `main.go`: a Chromium browser profile. -/
structure Profile where
  Name : GoStr
  Proxy : GoStr
  ProxyType : GoStr
  Flags : GoStr
deriving DecidableEq, Inhabited

/-- Go map assignment `m[k] = v`: overwrite the entry at `k` if present,
otherwise append a new entry. -/
def insertProfile (m : List (GoStr × Profile)) (k : GoStr) (v : Profile) :
    List (GoStr × Profile) :=
  match m with
  | [] => [(k, v)]
  | (k0, v0) :: rest =>
    if k0 = k then (k, v) :: rest else (k0, v0) :: insertProfile rest k v

/-- Go map read `m[k]`: the value stored under key `k`, if any. -/
def lookupKey (m : List (GoStr × Profile)) (k : GoStr) : Option Profile :=
  match m with
  | [] => none
  | (k0, v) :: rest => if k0 = k then some v else lookupKey rest k

/-- Go `delete(m, k)`: remove the entry stored under key `k`. -/
def removeKey (m : List (GoStr × Profile)) (k : GoStr) : List (GoStr × Profile) :=
  match m with
  | [] => []
  | (k0, v) :: rest =>
    if k0 = k then removeKey rest k else (k0, v) :: removeKey rest k

/-- Body of the line loop of `loadProfiles` (`main.go` lines 263-277): skip
blank lines and `#` comment lines, split the rest on `|`, and when at least
four fields result, store a profile built from the first four fields. -/
def loadLineStep (m : List (GoStr × Profile)) (line : GoStr) :
    List (GoStr × Profile) :=
  if line = [] ∨ startsWithHash line = true then m
  else
    match goSplit '|' line with
    | n :: p :: t :: f :: _ => insertProfile m n ⟨n, p, t, f⟩
    | _ => m

/-- The parsing core of `loadProfiles`: fold the line loop over the file
content split on newlines, starting from the current in-memory map. -/
def loadProfilesFromData (data : GoStr) (init : List (GoStr × Profile)) :
    List (GoStr × Profile) :=
  (goSplit '\n' data).foldl loadLineStep init

/-- One serialized profile line, `fmt.Sprintf("%s|%s|%s|%s\n", ...)` as used
by both `saveProfiles` and the first-run seeding loop. -/
def profileLine (p : Profile) : GoStr :=
  p.Name ++ '|' :: (p.Proxy ++ '|' :: (p.ProxyType ++ '|' :: (p.Flags ++ ['\n'])))

/-- The serialized line without its trailing newline. -/
def lineBody (p : Profile) : GoStr :=
  p.Name ++ '|' :: (p.Proxy ++ '|' :: (p.ProxyType ++ '|' :: p.Flags))

/-- `saveProfiles` (`main.go` lines 319-327): concatenate one serialized
line per profile, in the iteration order given by the list. -/
def saveProfilesContent (ps : List Profile) : GoStr :=
  ps.foldl (fun content p => content ++ profileLine p) []

/-- The two default profiles seeded by `loadProfiles` when the config file
does not exist (`main.go` lines 244-247). -/
def seedDefaults : List Profile :=
  [⟨("default").toList, ("none").toList, ("none").toList,
    ("--no-first-run --disable-features=RendererCodeIntegrity").toList⟩,
   ⟨("clean").toList, ("none").toList, ("none").toList,
    ("--no-first-run --disable-features=RendererCodeIntegrity,UseChromeOSDirectVideoDecoder --disable-gpu-driver-bug-workarounds --ignore-gpu-blacklist --disable-gpu-compositing --disable-infobars").toList⟩]

/-- The file content written on first run (`main.go` lines 249-254). -/
def seedContent : GoStr :=
  seedDefaults.foldl (fun content p => content ++ profileLine p) []

/-- The fixed suppression tail of `launchBrowser` in `main.go`
(lines 377-401). -/
def standardFlags : List GoStr :=
  [("--disable-logging").toList,
   ("--disable-breakpad").toList,
   ("--disable-infobars").toList,
   ("--disable-notifications").toList,
   ("--no-default-browser-check").toList,
   ("--silent-launch").toList,
   ("--disable-gpu").toList,
   ("--disable-gpu-compositing").toList,
   ("--disable-gpu-sandbox").toList,
   ("--disable-gpu-driver-bug-workarounds").toList,
   ("--disable-features=UseChromeOSDirectVideoDecoder").toList,
   ("--disable-accelerated-2d-canvas").toList,
   ("--disable-accelerated-video-decode").toList,
   ("--disable-accelerated-video-encode").toList,
   ("--disable-webgl").toList,
   ("--disable-threaded-animation").toList,
   ("--disable-webgl-image-chromium").toList,
   ("--force-dark-mode").toList,
   ("--ignore-certificate-errors").toList]

/-- The fixed suppression tail of `launchBrowser` in the second file
variant (lines 233-255), which stops at `--force-dark-mode`. -/
def standardFlagsV0 : List GoStr :=
  [("--disable-logging").toList,
   ("--disable-breakpad").toList,
   ("--disable-infobars").toList,
   ("--disable-notifications").toList,
   ("--no-default-browser-check").toList,
   ("--silent-launch").toList,
   ("--disable-gpu").toList,
   ("--disable-gpu-compositing").toList,
   ("--disable-gpu-sandbox").toList,
   ("--disable-gpu-driver-bug-workarounds").toList,
   ("--disable-features=UseChromeOSDirectVideoDecoder").toList,
   ("--disable-accelerated-2d-canvas").toList,
   ("--disable-accelerated-video-decode").toList,
   ("--disable-accelerated-video-encode").toList,
   ("--disable-webgl").toList,
   ("--disable-threaded-animation").toList,
   ("--disable-webgl-image-chromium").toList,
   ("--force-dark-mode").toList]

/-- The `cmdArgs` construction of `launchBrowser` in `main.go`
(lines 347-405), translated append by append. -/
def buildCmdArgs (profile : Profile) (profilePath : GoStr) : List GoStr :=
  let cmdArgs : List GoStr := []
  let cmdArgs := cmdArgs ++ [("--user-data-dir=").toList ++ profilePath]
  let cmdArgs := cmdArgs ++ [("--new-window").toList]
  let cmdArgs := cmdArgs ++ [("about:blank").toList]
  let cmdArgs :=
    if profile.Proxy ≠ ("none").toList then
      let proxyFlag := ("--proxy-server=").toList
      let proxyFlag :=
        if profile.ProxyType = ("http").toList then proxyFlag ++ ("http://").toList
        else proxyFlag
      let proxyFlag := proxyFlag ++ profile.Proxy
      cmdArgs ++ [proxyFlag]
    else cmdArgs
  let cmdArgs :=
    if profile.Flags ≠ [] then
      (goSplit ' ' profile.Flags).foldl
        (fun acc fl => if fl ≠ [] then acc ++ [fl] else acc) cmdArgs
    else cmdArgs
  standardFlags.foldl (fun acc fl => acc ++ [fl]) cmdArgs

/-- The `cmdArgs` construction of `launchBrowser` in the second file
variant (lines 203-259): identical except for the shorter suppression
tail. -/
def buildCmdArgsV0 (profile : Profile) (profilePath : GoStr) : List GoStr :=
  let cmdArgs : List GoStr := []
  let cmdArgs := cmdArgs ++ [("--user-data-dir=").toList ++ profilePath]
  let cmdArgs := cmdArgs ++ [("--new-window").toList]
  let cmdArgs := cmdArgs ++ [("about:blank").toList]
  let cmdArgs :=
    if profile.Proxy ≠ ("none").toList then
      let proxyFlag := ("--proxy-server=").toList
      let proxyFlag :=
        if profile.ProxyType = ("http").toList then proxyFlag ++ ("http://").toList
        else proxyFlag
      let proxyFlag := proxyFlag ++ profile.Proxy
      cmdArgs ++ [proxyFlag]
    else cmdArgs
  let cmdArgs :=
    if profile.Flags ≠ [] then
      (goSplit ' ' profile.Flags).foldl
        (fun acc fl => if fl ≠ [] then acc ++ [fl] else acc) cmdArgs
    else cmdArgs
  standardFlagsV0.foldl (fun acc fl => acc ++ [fl]) cmdArgs

/-- The fields of `ChromiumManager` that the view state machine reads and
writes (its list widgets, paths and error field carry no transition
logic). -/
structure CM where
  profiles : List (GoStr × Profile)
  currentView : GoStr
  message : GoStr
  selected : GoStr
  profileName : GoStr
  profileProxy : GoStr
  profileType : GoStr
  profileFlags : GoStr
deriving DecidableEq, Inhabited

/-- The `manage` view's Enter handler (`main.go` lines 564-585), given the
title of the highlighted item. -/
def manageConfirm (cm : CM) (title : GoStr) : CM :=
  if title = ("Add New Profile").toList then
    { cm with
      currentView := ("add_profile").toList,
      profileName := [],
      profileProxy := ("none").toList,
      profileType := ("none").toList,
      profileFlags := ("--no-first-run --disable-features=RendererCodeIntegrity").toList }
  else if title = ("Edit Profile").toList then
    { cm with currentView := ("select_edit").toList }
  else if title = ("Delete Profile").toList then
    { cm with currentView := ("select_delete").toList }
  else cm

/-- The Enter handler shared by the `edit_profile` and `add_profile` views
(`main.go` lines 675-710): validate, optionally rename, upsert, and return
to the main view. -/
def saveEditedProfile (cm : CM) : CM :=
  let oldName := cm.selected
  if cm.profileName = [] then
    { cm with message := ("Profile name is required").toList }
  else if oldName ≠ cm.profileName ∧ (lookupKey cm.profiles cm.profileName).isSome then
    { cm with message :=
        ("Profile \x27").toList ++ cm.profileName ++ ("\x27 already exists").toList }
  else
    let profiles :=
      if oldName ≠ cm.profileName then removeKey cm.profiles oldName else cm.profiles
    let profiles :=
      insertProfile profiles cm.profileName
        ⟨cm.profileName, cm.profileProxy, cm.profileType, cm.profileFlags⟩
    { cm with
      profiles := profiles,
      message := ("Profile \x27").toList ++ cm.profileName ++ ("\x27 updated").toList,
      currentView := ("main").toList }

/-- The `confirm_delete` view's `y` handler (`main.go` lines 616-621). -/
def confirmDeleteYes (cm : CM) : CM :=
  { cm with
    profiles := removeKey cm.profiles cm.selected,
    message := ("Profile \x27").toList ++ cm.selected ++ ("\x27 deleted").toList,
    currentView := ("main").toList }

/-- The non-interactive subcommands dispatched by `main` after
`parseCommandLine` (`main.go` lines 838-884); `help` exits inside
`parseCommandLine`. -/
inductive Cmd where
  | launch
  | clean
  | list
  | version
  | help
deriving DecidableEq

/-- Outcome of the file-system steps of the `clean` subcommand. -/
inductive CleanOutcome where
  | dirMissing
  | readDirError
  | removeError
  | success
deriving DecidableEq

/-- Exit code of the `clean` branch of `main`: only a removal failure calls
`os.Exit(1)` (line 866); a missing directory or a read error only prints and
falls through to `os.Exit(0)`. -/
def cleanExitCode (outcome : CleanOutcome) : Nat :=
  match outcome with
  | .dirMissing => 0
  | .readDirError => 0
  | .removeError => 1
  | .success => 0

/-- Process exit code of a non-interactive run, as a function of the
subcommand, the clean outcome, and whether the launch operation succeeded
(`launchBrowser` only returns a message; `main` prints it and reaches
`os.Exit(0)` regardless). -/
def mainExitCode (cmd : Cmd) (outcome : CleanOutcome) (launchOk : Bool) : Nat :=
  match cmd with
  | .launch => 0
  | .clean => cleanExitCode outcome
  | .list => 0
  | .version => 0
  | .help => 0

/-- Whether the claim of C7 regards the run as a failed operation. -/
def c7OpFails (cmd : Cmd) (outcome : CleanOutcome) (launchOk : Bool) : Prop :=
  match cmd with
  | .launch => launchOk = false
  | .clean => outcome ≠ .success
  | _ => False

/-- Claim C7 as stated: a non-interactive run exits non-zero exactly when
the operation fails. -/
def c7ClaimProp : Prop :=
  ∀ (cmd : Cmd) (outcome : CleanOutcome) (launchOk : Bool),
    mainExitCode cmd outcome launchOk ≠ 0 ↔ c7OpFails cmd outcome launchOk

/-- A store-file line that `load` keeps, in the words of the spec: not
blank, not a `#` comment, and splitting on `|` into at least four
fields. -/
def keptLine (line : GoStr) : Bool :=
  decide (line ≠ []) && !(startsWithHash line) && decide (4 ≤ (goSplit '|' line).length)

/-- Parsing of a kept line, in the words of the spec: the first three
fields name the profile and its proxy settings, the fourth is the flags
string; anything after it is discarded. -/
def parseKeptLine (m : List (GoStr × Profile)) (line : GoStr) :
    List (GoStr × Profile) :=
  match goSplit '|' line with
  | n :: p :: t :: f :: _ => insertProfile m n ⟨n, p, t, f⟩
  | _ => m

/-- Key discipline of the in-memory map: keys are pairwise distinct and
every stored profile carries its own key as its name. -/
def KeysInv (m : List (GoStr × Profile)) : Prop :=
  (m.map Prod.fst).Nodup ∧ ∀ e ∈ m, e.2.Name = e.1

/-- The full invariant claimed for the mapping: key discipline plus
non-empty names. -/
def NamesInv (m : List (GoStr × Profile)) : Prop :=
  KeysInv m ∧ ∀ e ∈ m, e.2.Name ≠ []

instance (m : List (GoStr × Profile)) : Decidable (KeysInv m) := by
  unfold KeysInv; infer_instance

instance (m : List (GoStr × Profile)) : Decidable (NamesInv m) := by
  unfold NamesInv; infer_instance

/-- The head of the argument list as the spec words it: user-data-dir flag,
new-window flag, blank-page argument. -/
def specHeadArgs (dir : GoStr) : List GoStr :=
  [("--user-data-dir=").toList ++ dir, ("--new-window").toList, ("about:blank").toList]

/-- The proxy portion as the spec words it: absent for `"none"`, otherwise a
single `--proxy-server=` flag whose prefix is `http://` exactly when the
proxy type is `http`. -/
def specProxyArgs (p : Profile) : List GoStr :=
  if p.Proxy = ("none").toList then []
  else
    [("--proxy-server=").toList
      ++ (if p.ProxyType = ("http").toList then ("http://").toList else [])
      ++ p.Proxy]

/-- The user-flag portion as the spec words it: the non-empty tokens of the
flags string split on single spaces, in order. -/
def specFlagTokens (p : Profile) : List GoStr :=
  (goSplit ' ' p.Flags).filter (fun t => t ≠ [])

/-- A concrete profile without proxy, used to instantiate C1. -/
def c1Example : Profile :=
  ⟨("p").toList, ("none").toList, ("none").toList, ("--a --b").toList⟩

/-- A concrete two-profile store, used to instantiate C2. -/
def c2Examples : List Profile :=
  [⟨("work").toList, ("127.0.0.1:8080").toList, ("http").toList, ("--a --b").toList⟩,
   ⟨("home").toList, ("none").toList, ("none").toList, ("--x").toList⟩]

/-- A concrete editing state: profile `work` loaded into the edit buffer
(`selected = "work"`), new name `office` typed, used to instantiate C5. -/
def c5ExampleState : CM :=
  { profiles := [(("work").toList,
      ⟨("work").toList, ("none").toList, ("none").toList, ("--a").toList⟩)],
    currentView := ("edit_profile").toList,
    message := [],
    selected := ("work").toList,
    profileName := ("office").toList,
    profileProxy := ("127.0.0.1:9050").toList,
    profileType := ("socks5").toList,
    profileFlags := ("--b").toList }

/-- A concrete manage-view state reached after having edited profile `work`
(so `selected` still holds `"work"`), used for C6. -/
def c6ExampleState : CM :=
  { profiles := [(("work").toList,
      ⟨("work").toList, ("none").toList, ("none").toList, ("--a").toList⟩)],
    currentView := ("manage").toList,
    message := [],
    selected := ("work").toList,
    profileName := ("work").toList,
    profileProxy := ("none").toList,
    profileType := ("none").toList,
    profileFlags := ("--a").toList }

/-- The state after confirming "Add New Profile" from `c6ExampleState`. -/
def c6AfterConfirm : CM := manageConfirm c6ExampleState (("Add New Profile").toList)

/-- The state after then typing the new name `personal` and confirming the
save in the `add_profile` view. -/
def c6AfterSave : CM :=
  saveEditedProfile { c6AfterConfirm with profileName := ("personal").toList }

/-- A concrete add-profile state used to instantiate the amended C9. -/
def c9ExampleState : CM :=
  { profiles := [(("default").toList,
      ⟨("default").toList, ("none").toList, ("none").toList, ("--x").toList⟩)],
    currentView := ("add_profile").toList,
    message := [],
    selected := [],
    profileName := ("fresh").toList,
    profileProxy := ("none").toList,
    profileType := ("none").toList,
    profileFlags := ("--y").toList }

/-! ### Helper lemmas -/

theorem goSplit_eq_single (sep : Char) (s : GoStr) (h : sep ∉ s) :
    goSplit sep s = [s] := by
  induction s with
  | nil => rfl
  | cons c cs ih =>
    have hc : ¬ c = sep := fun he => h (he ▸ List.mem_cons_self c cs)
    have hcs : sep ∉ cs := fun hm => h (List.mem_cons_of_mem c hm)
    simp [goSplit, hc, ih hcs]

theorem goSplit_append_cons (sep : Char) (a b : GoStr) (h : sep ∉ a) :
    goSplit sep (a ++ sep :: b) = a :: goSplit sep b := by
  induction a with
  | nil => simp [goSplit]
  | cons c cs ih =>
    have hc : ¬ c = sep := fun he => h (he ▸ List.mem_cons_self c cs)
    have hcs : sep ∉ cs := fun hm => h (List.mem_cons_of_mem c hm)
    simp [goSplit, hc, ih hcs]

theorem foldl_append_singleton (xs acc : List GoStr) :
    xs.foldl (fun a fl => a ++ [fl]) acc = acc ++ xs := by
  induction xs generalizing acc with
  | nil => simp
  | cons x xs ih => simp [ih]

theorem foldl_append_ite (xs acc : List GoStr) :
    xs.foldl (fun a fl => if fl ≠ [] then a ++ [fl] else a) acc
      = acc ++ xs.filter (fun fl => fl ≠ []) := by
  induction xs generalizing acc with
  | nil => simp
  | cons x xs ih =>
    by_cases hx : x = []
    · subst hx; simpa using ih acc
    · simpa [hx] using ih (acc ++ [x])

theorem lookupKey_insertProfile (m : List (GoStr × Profile)) (k q : GoStr)
    (v : Profile) :
    lookupKey (insertProfile m k v) q = if k = q then some v else lookupKey m q := by
  induction m with
  | nil => simp [insertProfile, lookupKey]
  | cons e m ih =>
    obtain ⟨k0, v0⟩ := e
    by_cases h0 : k0 = k
    · subst h0
      by_cases hq : k0 = q <;> simp [insertProfile, lookupKey, hq]
    · by_cases hq : k0 = q
      · subst hq
        have : ¬ k = k0 := fun he => h0 he.symm
        simp [insertProfile, h0, lookupKey, this]
      · simp [insertProfile, h0, lookupKey, hq, ih]

theorem lookupKey_removeKey (m : List (GoStr × Profile)) (k q : GoStr) :
    lookupKey (removeKey m k) q = if k = q then none else lookupKey m q := by
  induction m with
  | nil => simp [removeKey, lookupKey]
  | cons e m ih =>
    obtain ⟨k0, v0⟩ := e
    by_cases h0 : k0 = k
    · subst h0
      by_cases hq : k0 = q
      · subst hq; simp [removeKey, lookupKey, ih]
      · simp [removeKey, lookupKey, hq, ih]
    · by_cases hq : k0 = q
      · subst hq
        have : ¬ k = k0 := fun he => h0 he.symm
        simp [removeKey, h0, lookupKey, this]
      · simp [removeKey, h0, lookupKey, hq, ih]

theorem mem_insertProfile {m : List (GoStr × Profile)} {k : GoStr} {v : Profile}
    {e : GoStr × Profile} (h : e ∈ insertProfile m k v) : e ∈ m ∨ e = (k, v) := by
  induction m with
  | nil => simpa [insertProfile] using h
  | cons e0 m ih =>
    obtain ⟨k0, v0⟩ := e0
    by_cases h0 : k0 = k
    · simp only [insertProfile, h0, if_pos rfl] at h
      rcases List.mem_cons.1 h with he | hm
      · exact Or.inr he
      · exact Or.inl (List.mem_cons_of_mem _ hm)
    · simp only [insertProfile, h0, if_neg h0] at h
      rcases List.mem_cons.1 h with he | hm
      · exact Or.inl (by rw [he]; exact List.mem_cons_self _ _)
      · rcases ih hm with h1 | h2
        · exact Or.inl (List.mem_cons_of_mem _ h1)
        · exact Or.inr h2

theorem mem_removeKey {m : List (GoStr × Profile)} {k : GoStr}
    {e : GoStr × Profile} (h : e ∈ removeKey m k) : e ∈ m := by
  induction m with
  | nil => simpa [removeKey] using h
  | cons e0 m ih =>
    obtain ⟨k0, v0⟩ := e0
    by_cases h0 : k0 = k
    · simp only [removeKey, if_pos h0] at h
      exact List.mem_cons_of_mem _ (ih h)
    · simp only [removeKey, if_neg h0] at h
      rcases List.mem_cons.1 h with he | hm
      · exact he ▸ List.mem_cons_self _ _
      · exact List.mem_cons_of_mem _ (ih hm)

theorem keys_insertProfile (m : List (GoStr × Profile)) (k : GoStr) (v : Profile) :
    (insertProfile m k v).map Prod.fst
      = if k ∈ m.map Prod.fst then m.map Prod.fst else m.map Prod.fst ++ [k] := by
  induction m with
  | nil => simp [insertProfile]
  | cons e m ih =>
    obtain ⟨k0, v0⟩ := e
    by_cases h0 : k0 = k
    · subst h0
      have hmem : k0 ∈ ((k0, v0) :: m).map Prod.fst := by simp
      simp [insertProfile, hmem]
    · have hne : ¬ k = k0 := fun he => h0 he.symm
      by_cases hk : k ∈ m.map Prod.fst <;>
        simp [insertProfile, h0, ih, hk, hne]

theorem keys_removeKey_sublist (m : List (GoStr × Profile)) (k : GoStr) :
    ((removeKey m k).map Prod.fst).Sublist (m.map Prod.fst) := by
  induction m with
  | nil => simp [removeKey]
  | cons e m ih =>
    obtain ⟨k0, v0⟩ := e
    by_cases h0 : k0 = k
    · simp only [removeKey, if_pos h0]
      exact ih.trans (List.sublist_cons_self _ _)
    · simp only [removeKey, if_neg h0, List.map_cons]
      exact ih.cons₂ _

theorem buildCmdArgs_decomp (p : Profile) (dir : GoStr) :
    buildCmdArgs p dir
      = specHeadArgs dir ++ specProxyArgs p ++ specFlagTokens p ++ standardFlags := by
  simp only [buildCmdArgs, specHeadArgs, specProxyArgs, specFlagTokens]
  rw [foldl_append_singleton]
  by_cases hflags : p.Flags = []
  · rw [if_neg (not_not_intro hflags)]
    by_cases hproxy : p.Proxy = ("none").toList
    · rw [if_neg (not_not_intro hproxy), if_pos hproxy, hflags]
      simp [goSplit, List.append_assoc]
    · rw [if_pos hproxy, if_neg hproxy, hflags]
      by_cases htype : p.ProxyType = ("http").toList
      · rw [if_pos htype, if_pos htype]
        simp [goSplit, List.append_assoc]
      · rw [if_neg htype, if_neg htype]
        simp [goSplit, List.append_assoc]
  · rw [if_pos hflags, foldl_append_ite]
    by_cases hproxy : p.Proxy = ("none").toList
    · rw [if_neg (not_not_intro hproxy), if_pos hproxy]
      simp [List.append_assoc]
    · rw [if_pos hproxy, if_neg hproxy]
      by_cases htype : p.ProxyType = ("http").toList
      · rw [if_pos htype, if_pos htype]
        simp [List.append_assoc]
      · rw [if_neg htype, if_neg htype]
        simp [List.append_assoc]

theorem buildCmdArgsV0_decomp (p : Profile) (dir : GoStr) :
    buildCmdArgsV0 p dir
      = specHeadArgs dir ++ specProxyArgs p ++ specFlagTokens p ++ standardFlagsV0 := by
  simp only [buildCmdArgsV0, specHeadArgs, specProxyArgs, specFlagTokens]
  rw [foldl_append_singleton]
  by_cases hflags : p.Flags = []
  · rw [if_neg (not_not_intro hflags)]
    by_cases hproxy : p.Proxy = ("none").toList
    · rw [if_neg (not_not_intro hproxy), if_pos hproxy, hflags]
      simp [goSplit, List.append_assoc]
    · rw [if_pos hproxy, if_neg hproxy, hflags]
      by_cases htype : p.ProxyType = ("http").toList
      · rw [if_pos htype, if_pos htype]
        simp [goSplit, List.append_assoc]
      · rw [if_neg htype, if_neg htype]
        simp [goSplit, List.append_assoc]
  · rw [if_pos hflags, foldl_append_ite]
    by_cases hproxy : p.Proxy = ("none").toList
    · rw [if_neg (not_not_intro hproxy), if_pos hproxy]
      simp [List.append_assoc]
    · rw [if_pos hproxy, if_neg hproxy]
      by_cases htype : p.ProxyType = ("http").toList
      · rw [if_pos htype, if_pos htype]
        simp [List.append_assoc]
      · rw [if_neg htype, if_neg htype]
        simp [List.append_assoc]

theorem loadLineStep_nil (m : List (GoStr × Profile)) : loadLineStep m [] = m := by
  simp [loadLineStep]

theorem profileLine_eq (p : Profile) : profileLine p = lineBody p ++ ['\n'] := by
  simp [profileLine, lineBody]

theorem saveProfilesContent_join (ps : List Profile) :
    saveProfilesContent ps = (ps.map profileLine).flatten := by
  have h : ∀ acc : GoStr,
      ps.foldl (fun content p => content ++ profileLine p) acc
        = acc ++ (ps.map profileLine).flatten := by
    induction ps with
    | nil => intro acc; simp
    | cons p ps ih => intro acc; simp [ih, List.append_assoc]
  simpa [saveProfilesContent] using h []

theorem not_mem_lineBody {c : Char} {p : Profile} (hc : c ≠ '|')
    (h1 : c ∉ p.Name) (h2 : c ∉ p.Proxy) (h3 : c ∉ p.ProxyType)
    (h4 : c ∉ p.Flags) : c ∉ lineBody p := by
  simp [lineBody, List.mem_append, List.mem_cons, h1, h2, h3, h4, hc]

theorem lineBody_ne_nil (p : Profile) : lineBody p ≠ [] := by
  simp [lineBody]

theorem startsWithHash_append (a b : GoStr) (h : a ≠ []) :
    startsWithHash (a ++ b) = startsWithHash a := by
  cases a with
  | nil => exact absurd rfl h
  | cons c l => rfl

theorem startsWithHash_lineBody (p : Profile) (hn : p.Name ≠ []) :
    startsWithHash (lineBody p) = startsWithHash p.Name :=
  startsWithHash_append p.Name _ hn

theorem goSplit_lineBody (p : Profile) (h1 : '|' ∉ p.Name) (h2 : '|' ∉ p.Proxy)
    (h3 : '|' ∉ p.ProxyType) (h4 : '|' ∉ p.Flags) :
    goSplit '|' (lineBody p) = [p.Name, p.Proxy, p.ProxyType, p.Flags] := by
  unfold lineBody
  rw [goSplit_append_cons _ _ _ h1, goSplit_append_cons _ _ _ h2,
    goSplit_append_cons _ _ _ h3, goSplit_eq_single _ _ h4]

theorem loadLineStep_lineBody (m : List (GoStr × Profile)) (p : Profile)
    (hn : p.Name ≠ []) (hh : startsWithHash p.Name = false)
    (h1 : '|' ∉ p.Name) (h2 : '|' ∉ p.Proxy) (h3 : '|' ∉ p.ProxyType)
    (h4 : '|' ∉ p.Flags) :
    loadLineStep m (lineBody p) = insertProfile m p.Name p := by
  have hsplit := goSplit_lineBody p h1 h2 h3 h4
  have hne := lineBody_ne_nil p
  have hhash : ¬ startsWithHash (lineBody p) = true := by
    rw [startsWithHash_lineBody p hn, hh]; simp
  unfold loadLineStep
  rw [if_neg (fun hc => Or.elim hc hne hhash), hsplit]

theorem goSplit_join_profileLines (ps : List Profile)
    (h : ∀ p ∈ ps, '\n' ∉ lineBody p) :
    goSplit '\n' ((ps.map profileLine).flatten) = ps.map lineBody ++ [[]] := by
  induction ps with
  | nil => simp [goSplit]
  | cons p ps ih =>
    have hp : '\n' ∉ lineBody p := h p (List.mem_cons_self _ _)
    have hps : ∀ q ∈ ps, '\n' ∉ lineBody q := fun q hq => h q (List.mem_cons_of_mem _ hq)
    simp only [List.map_cons, List.flatten_cons]
    rw [profileLine_eq, List.append_assoc, List.singleton_append,
      goSplit_append_cons _ _ _ hp, ih hps]
    simp

theorem insertProfile_of_not_mem (m : List (GoStr × Profile)) (k : GoStr)
    (v : Profile) (h : k ∉ m.map Prod.fst) : insertProfile m k v = m ++ [(k, v)] := by
  induction m with
  | nil => rfl
  | cons e m ih =>
    obtain ⟨k0, v0⟩ := e
    have h0 : ¬ k0 = k := by
      intro he; exact h (by simp [he])
    have hm : k ∉ m.map Prod.fst := fun hk => h (by simp [hk])
    simp [insertProfile, h0, ih hm]

theorem foldl_insert_eq_append (ps : List Profile) :
    ∀ m : List (GoStr × Profile), (∀ p ∈ ps, p.Name ∉ m.map Prod.fst) →
      (ps.map Profile.Name).Nodup →
      ps.foldl (fun acc p => insertProfile acc p.Name p) m
        = m ++ ps.map (fun p => (p.Name, p)) := by
  induction ps with
  | nil => intro m _ _; simp
  | cons p ps ih =>
    intro m hm hnodup
    have hp : p.Name ∉ m.map Prod.fst := hm p (List.mem_cons_self _ _)
    have hnotin : p.Name ∉ ps.map Profile.Name := by
      have := hnodup
      rw [List.map_cons, List.nodup_cons] at this
      exact this.1
    have hnodup2 : (ps.map Profile.Name).Nodup := by
      have := hnodup
      rw [List.map_cons, List.nodup_cons] at this
      exact this.2
    have hm2 : ∀ q ∈ ps, q.Name ∉ (m ++ [(p.Name, p)]).map Prod.fst := by
      intro q hq
      simp only [List.map_append, List.mem_append]
      rintro (h | h)
      · exact hm q (List.mem_cons_of_mem _ hq) h
      · simp only [List.map_cons, List.map_nil, List.mem_singleton] at h
        exact hnotin (h ▸ List.mem_map_of_mem Profile.Name hq)
    rw [List.foldl_cons, insertProfile_of_not_mem m p.Name p hp, ih _ hm2 hnodup2]
    simp

theorem foldl_loadLineStep_bodies (ps : List Profile) :
    ∀ m : List (GoStr × Profile),
      (∀ p ∈ ps, p.Name ≠ [] ∧ startsWithHash p.Name = false) →
      (∀ p ∈ ps, '|' ∉ p.Name ∧ '|' ∉ p.Proxy ∧ '|' ∉ p.ProxyType ∧ '|' ∉ p.Flags) →
      (ps.map lineBody).foldl loadLineStep m
        = ps.foldl (fun acc p => insertProfile acc p.Name p) m := by
  induction ps with
  | nil => intro m _ _; rfl
  | cons p ps ih =>
    intro m hname hbar
    obtain ⟨hn, hh⟩ := hname p (List.mem_cons_self _ _)
    obtain ⟨h1, h2, h3, h4⟩ := hbar p (List.mem_cons_self _ _)
    rw [List.map_cons, List.foldl_cons, List.foldl_cons,
      loadLineStep_lineBody m p hn hh h1 h2 h3 h4]
    exact ih _ (fun q hq => hname q (List.mem_cons_of_mem _ hq))
      (fun q hq => hbar q (List.mem_cons_of_mem _ hq))

theorem loadLineStep_eq_kept (m : List (GoStr × Profile)) (l : GoStr) :
    loadLineStep m l = if keptLine l = true then parseKeptLine m l else m := by
  by_cases hnil : l = []
  · simp [loadLineStep, keptLine, hnil]
  · by_cases hhash : startsWithHash l = true
    · simp [loadLineStep, keptLine, hnil, hhash]
    · have hskip : ¬ (l = [] ∨ startsWithHash l = true) := by
        intro hc
        exact Or.elim hc hnil hhash
      rcases hgs : goSplit '|' l with _ | ⟨a, _ | ⟨b, _ | ⟨c, _ | ⟨d, rest⟩⟩⟩⟩ <;>
        simp [loadLineStep, parseKeptLine, keptLine, hnil, hhash, hskip, hgs,
          Nat.succ_le_succ, Nat.le_add_left]

theorem foldl_loadLineStep_filter (lines : List GoStr) :
    ∀ m : List (GoStr × Profile),
      lines.foldl loadLineStep m = (lines.filter keptLine).foldl parseKeptLine m := by
  induction lines with
  | nil => intro m; rfl
  | cons l ls ih =>
    intro m
    rw [List.foldl_cons, loadLineStep_eq_kept, List.filter_cons]
    by_cases hk : keptLine l = true
    · rw [if_pos hk, if_pos hk, List.foldl_cons]
      exact ih _
    · rw [if_neg hk, if_neg hk]
      exact ih m

theorem keysInv_insertProfile {m : List (GoStr × Profile)} {k : GoStr}
    {v : Profile} (h : KeysInv m) (hv : v.Name = k) :
    KeysInv (insertProfile m k v) := by
  constructor
  · rw [keys_insertProfile]
    by_cases hk : k ∈ m.map Prod.fst
    · rw [if_pos hk]; exact h.1
    · rw [if_neg hk]
      rw [List.nodup_append]
      exact ⟨h.1, List.nodup_singleton k, by simpa using hk⟩
  · intro e he
    rcases mem_insertProfile he with hm | hkv
    · exact h.2 e hm
    · rw [hkv]; exact hv

theorem namesInv_insertProfile {m : List (GoStr × Profile)} {k : GoStr}
    {v : Profile} (h : NamesInv m) (hv : v.Name = k) (hne : v.Name ≠ []) :
    NamesInv (insertProfile m k v) := by
  refine ⟨keysInv_insertProfile h.1 hv, ?_⟩
  intro e he
  rcases mem_insertProfile he with hm | hkv
  · exact h.2 e hm
  · rw [hkv]; exact hne

theorem namesInv_removeKey {m : List (GoStr × Profile)} {k : GoStr}
    (h : NamesInv m) : NamesInv (removeKey m k) := by
  refine ⟨⟨h.1.1.sublist (keys_removeKey_sublist m k), ?_⟩, ?_⟩
  · intro e he; exact h.1.2 e (mem_removeKey he)
  · intro e he; exact h.2 e (mem_removeKey he)

theorem keysInv_loadLineStep {m : List (GoStr × Profile)} (l : GoStr)
    (h : KeysInv m) : KeysInv (loadLineStep m l) := by
  rw [loadLineStep_eq_kept]
  by_cases hk : keptLine l = true
  · rw [if_pos hk]
    unfold parseKeptLine
    rcases hgs : goSplit '|' l with _ | ⟨a, _ | ⟨b, _ | ⟨c, _ | ⟨d, rest⟩⟩⟩⟩
    · exact h
    · exact h
    · exact h
    · exact h
    · exact keysInv_insertProfile h rfl
  · rw [if_neg hk]; exact h

theorem keysInv_foldl_load (lines : List GoStr) :
    ∀ m : List (GoStr × Profile), KeysInv m → KeysInv (lines.foldl loadLineStep m) := by
  induction lines with
  | nil => intro m h; exact h
  | cons l ls ih =>
    intro m h
    rw [List.foldl_cons]
    exact ih _ (keysInv_loadLineStep l h)

theorem saveEditedProfile_namesInv (cm : CM) (h : NamesInv cm.profiles) :
    NamesInv (saveEditedProfile cm).profiles := by
  simp only [saveEditedProfile]
  by_cases hname : cm.profileName = []
  · rw [if_pos hname]; exact h
  · rw [if_neg hname]
    by_cases hcond : cm.selected ≠ cm.profileName
        ∧ (lookupKey cm.profiles cm.profileName).isSome = true
    · rw [if_pos hcond]; exact h
    · rw [if_neg hcond]
      by_cases hsel : cm.selected ≠ cm.profileName
      · rw [if_pos hsel]
        exact namesInv_insertProfile (namesInv_removeKey h) rfl hname
      · rw [if_neg hsel]
        exact namesInv_insertProfile h rfl hname

/-! ### Claims -/

/-- C1: for every profile, `launchBrowser` builds, in this exact order, the
user-data-dir flag, `--new-window`, `about:blank`, then (when the proxy
address is not `"none"`) a single `--proxy-server=` flag whose prefix is
`http://` exactly when the proxy type is `http` and empty otherwise, then
each non-empty token of the flags string split on single spaces, then the
fixed suppression tail; for proxy `"none"` the builder emits no proxy flag
anywhere (every element comes from the user flags or the fixed non-proxy
arguments). -/
theorem c1_argument_order (p : Profile) (dir : GoStr) :
    buildCmdArgs p dir
        = specHeadArgs dir ++ specProxyArgs p ++ specFlagTokens p ++ standardFlags
    ∧ (p.Proxy = ("none").toList →
        buildCmdArgs p dir = specHeadArgs dir ++ specFlagTokens p ++ standardFlags)
    ∧ (p.Proxy = ("none").toList →
        ∀ a ∈ buildCmdArgs p dir,
          a ∈ goSplit ' ' p.Flags ∨ a ∈ specHeadArgs dir ++ standardFlags) := by
  refine ⟨buildCmdArgs_decomp p dir, ?_, ?_⟩
  · intro hnone
    rw [buildCmdArgs_decomp p dir]
    simp [specProxyArgs, hnone]
  · intro hnone a ha
    rw [buildCmdArgs_decomp p dir] at ha
    simp only [specProxyArgs, if_pos hnone, List.append_nil, List.mem_append] at ha
    rcases ha with (hh | ht) | hs
    · exact Or.inr (List.mem_append_left _ hh)
    · exact Or.inl (List.mem_of_mem_filter ht)
    · exact Or.inr (List.mem_append_right _ hs)

/-- Witness for C1 at a concrete no-proxy profile: the user flag `--a`
occurring in the built argument list is traced back to the flags tokens. -/
theorem c1_argument_order_witness :
    ("--a").toList ∈ goSplit ' ' c1Example.Flags
      ∨ ("--a").toList ∈ specHeadArgs (("/d").toList) ++ standardFlags :=
  (c1_argument_order c1Example (("/d").toList)).2.2 rfl (("--a").toList) (by decide)

/-- C8: for every profile and working directory, the argument list of the
`main.go` variant equals that of the second file variant with the single
extra trailing flag `--ignore-certificate-errors`. -/
theorem c8_variant_tail (p : Profile) (dir : GoStr) :
    buildCmdArgs p dir
      = buildCmdArgsV0 p dir ++ [("--ignore-certificate-errors").toList] := by
  rw [buildCmdArgs_decomp, buildCmdArgsV0_decomp]
  have h : standardFlags = standardFlagsV0 ++ [("--ignore-certificate-errors").toList] := rfl
  rw [h]
  simp [List.append_assoc]

/-- C2: for every finite mapping of profiles whose fields are free of `|`
and newline characters and whose names are non-empty and do not begin with
the comment character, saving and then loading yields a mapping equal to the
original, entry by entry, whatever iteration order `saveProfiles` used
(quantified through the list order of `ps`). -/
theorem c2_roundtrip (ps : List Profile)
    (hbar : ∀ p ∈ ps, '|' ∉ p.Name ∧ '|' ∉ p.Proxy ∧ '|' ∉ p.ProxyType ∧ '|' ∉ p.Flags)
    (hnl : ∀ p ∈ ps, '\n' ∉ p.Name ∧ '\n' ∉ p.Proxy ∧ '\n' ∉ p.ProxyType ∧ '\n' ∉ p.Flags)
    (hname : ∀ p ∈ ps, p.Name ≠ [] ∧ startsWithHash p.Name = false)
    (hnodup : (ps.map Profile.Name).Nodup) :
    ∀ q, lookupKey (loadProfilesFromData (saveProfilesContent ps) []) q
        = lookupKey (ps.map (fun p => (p.Name, p))) q := by
  have hbody : ∀ p ∈ ps, '\n' ∉ lineBody p := by
    intro p hp
    obtain ⟨a1, a2, a3, a4⟩ := hnl p hp
    exact not_mem_lineBody (by decide) a1 a2 a3 a4
  have hmap : loadProfilesFromData (saveProfilesContent ps) []
      = ps.map (fun p => (p.Name, p)) := by
    unfold loadProfilesFromData
    rw [saveProfilesContent_join, goSplit_join_profileLines ps hbody,
      List.foldl_append]
    simp only [List.foldl_cons, List.foldl_nil, loadLineStep_nil]
    rw [foldl_loadLineStep_bodies ps [] hname hbar,
      foldl_insert_eq_append ps [] (by simp) hnodup]
    simp
  intro q
  rw [hmap]

/-- Witness for C2 at a concrete two-profile store. -/
theorem c2_roundtrip_witness :
    lookupKey (loadProfilesFromData (saveProfilesContent c2Examples) []) (("work").toList)
      = lookupKey (c2Examples.map (fun p => (p.Name, p))) (("work").toList) :=
  c2_roundtrip c2Examples (by decide) (by decide) (by decide) (by decide)
    (("work").toList)

/-- C3: loading with a nonexistent store file seeds exactly the two default
profiles `default` and `clean` with their documented flag strings, and the
file content written is exactly those two entries. -/
theorem c3_first_run_seeding :
    loadProfilesFromData seedContent []
        = [(("default").toList,
            ⟨("default").toList, ("none").toList, ("none").toList,
             ("--no-first-run --disable-features=RendererCodeIntegrity").toList⟩),
           (("clean").toList,
            ⟨("clean").toList, ("none").toList, ("none").toList,
             ("--no-first-run --disable-features=RendererCodeIntegrity,UseChromeOSDirectVideoDecoder --disable-gpu-driver-bug-workarounds --ignore-gpu-blacklist --disable-gpu-compositing --disable-infobars").toList⟩)]
    ∧ seedContent
        = ("default|none|none|--no-first-run --disable-features=RendererCodeIntegrity\nclean|none|none|--no-first-run --disable-features=RendererCodeIntegrity,UseChromeOSDirectVideoDecoder --disable-gpu-driver-bug-workarounds --ignore-gpu-blacklist --disable-gpu-compositing --disable-infobars\n").toList :=
  ⟨by decide, by decide⟩

/-- C4: for every store-file content, load yields exactly the profiles
parsed from the kept lines — blank lines, `#` comment lines and lines with
fewer than four `|`-fields contribute nothing — and a line beginning with
`#` is never kept. -/
theorem c4_malformed_tolerance (data : GoStr) :
    loadProfilesFromData data []
        = ((goSplit '\n' data).filter keptLine).foldl parseKeptLine []
    ∧ (∀ line, startsWithHash line = true → keptLine line = false) := by
  constructor
  · unfold loadProfilesFromData
    exact foldl_loadLineStep_filter (goSplit '\n' data) []
  · intro line h
    simp [keptLine, h]

/-- Witness for C4: a leading comment line is not kept. -/
theorem c4_malformed_tolerance_witness :
    keptLine (("#a|b|c|d").toList) = false :=
  (c4_malformed_tolerance []).2 (("#a|b|c|d").toList) (by decide)

/-- C10: a store line splitting on `|` into more than four fields is not
dropped: it stores a profile whose name, proxy and proxy type are the first
three fields and whose flags value is exactly the fourth field, everything
after the fourth `|` being discarded; other keys are untouched. -/
theorem c10_extra_fields (m : List (GoStr × Profile)) (line n p t f : GoStr)
    (rest : List GoStr) (hnl : '\n' ∉ line) (hhash : startsWithHash line = false)
    (hsplit : goSplit '|' line = n :: p :: t :: f :: rest) (hextra : rest ≠ []) :
    lookupKey (loadProfilesFromData line m) n = some ⟨n, p, t, f⟩
    ∧ ∀ q, q ≠ n → lookupKey (loadProfilesFromData line m) q = lookupKey m q := by
  have hne : line ≠ [] := by
    intro h
    rw [h] at hsplit
    simp [goSplit] at hsplit
  have hload : loadProfilesFromData line m = insertProfile m n ⟨n, p, t, f⟩ := by
    unfold loadProfilesFromData
    rw [goSplit_eq_single _ _ hnl]
    simp only [List.foldl_cons, List.foldl_nil]
    unfold loadLineStep
    rw [if_neg (by simp [hne, hhash]), hsplit]
  constructor
  · rw [hload, lookupKey_insertProfile]
    simp
  · intro q hq
    rw [hload, lookupKey_insertProfile, if_neg (fun he => hq he.symm)]

/-- Witness for C10 at the concrete five-field line `a|b|c|d|e`. -/
theorem c10_extra_fields_witness :
    lookupKey (loadProfilesFromData (("a|b|c|d|e").toList) []) (("a").toList)
      = some ⟨("a").toList, ("b").toList, ("c").toList, ("d").toList⟩ :=
  (c10_extra_fields [] (("a|b|c|d|e").toList) (("a").toList) (("b").toList)
    (("c").toList) (("d").toList) [("e").toList]
    (by decide) (by decide) (by decide) (by decide)).1

/-- C5: with `selected` (the originalName) holding an existing key,
confirming the edit with a non-empty name different from `selected` removes
the entry under `selected` and inserts the buffer's four fields under the
new name (other keys untouched); if the new name collides with an existing
different profile the store, the collision message aside, is left unchanged
and the view does not change. -/
theorem c5_rename_on_edit (cm : CM)
    (hsel : (lookupKey cm.profiles cm.selected).isSome)
    (hne : cm.profileName ≠ [])
    (hdiff : cm.profileName ≠ cm.selected) :
    (lookupKey cm.profiles cm.profileName = none →
        lookupKey (saveEditedProfile cm).profiles cm.selected = none
        ∧ lookupKey (saveEditedProfile cm).profiles cm.profileName
            = some ⟨cm.profileName, cm.profileProxy, cm.profileType, cm.profileFlags⟩
        ∧ ∀ q, q ≠ cm.selected → q ≠ cm.profileName →
            lookupKey (saveEditedProfile cm).profiles q = lookupKey cm.profiles q)
    ∧ ((lookupKey cm.profiles cm.profileName).isSome →
        (saveEditedProfile cm).profiles = cm.profiles
        ∧ (saveEditedProfile cm).message
            = ("Profile \x27").toList ++ cm.profileName ++ ("\x27 already exists").toList
        ∧ (saveEditedProfile cm).currentView = cm.currentView) := by
  have hsne : cm.selected ≠ cm.profileName := fun he => hdiff he.symm
  constructor
  · intro hnone
    have hcond : ¬ (cm.selected ≠ cm.profileName
        ∧ (lookupKey cm.profiles cm.profileName).isSome = true) := by
      rintro ⟨-, hs⟩
      rw [hnone] at hs
      simp at hs
    have hprof : (saveEditedProfile cm).profiles
        = insertProfile (removeKey cm.profiles cm.selected) cm.profileName
            ⟨cm.profileName, cm.profileProxy, cm.profileType, cm.profileFlags⟩ := by
      simp only [saveEditedProfile]
      rw [if_neg hne, if_neg hcond, if_pos hsne]
    refine ⟨?_, ?_, ?_⟩
    · rw [hprof, lookupKey_insertProfile, if_neg hdiff, lookupKey_removeKey,
        if_pos rfl]
    · rw [hprof, lookupKey_insertProfile, if_pos rfl]
    · intro q hq1 hq2
      rw [hprof, lookupKey_insertProfile, if_neg (fun he => hq2 he.symm),
        lookupKey_removeKey, if_neg (fun he => hq1 he.symm)]
  · intro hsome
    have hstate : saveEditedProfile cm
        = { cm with message :=
              ("Profile \x27").toList ++ cm.profileName ++ ("\x27 already exists").toList } := by
      simp only [saveEditedProfile]
      rw [if_neg hne, if_pos ⟨hsne, hsome⟩]
    rw [hstate]
    exact ⟨rfl, rfl, rfl⟩

/-- Witness for C5: renaming `work` to `office` on a concrete store. -/
theorem c5_rename_on_edit_witness :
    lookupKey (saveEditedProfile c5ExampleState).profiles (("work").toList) = none
    ∧ lookupKey (saveEditedProfile c5ExampleState).profiles (("office").toList)
        = some ⟨("office").toList, ("127.0.0.1:9050").toList, ("socks5").toList,
            ("--b").toList⟩ := by
  have h := (c5_rename_on_edit c5ExampleState (by decide) (by decide) (by decide)).1
    (by decide)
  exact ⟨h.1, h.2.1⟩

/-- C6 (code behavior at the failing input): confirming "Add New Profile"
from a manage view reached after editing profile `work` resets the four
buffer fields, but `selected` — the rename origin — keeps the value
`"work"` instead of being cleared as the claim states; consequently saving
the new profile under the name `personal` deletes profile `work` from the
store. -/
theorem c6_selected_retained :
    c6AfterConfirm.currentView = ("add_profile").toList
    ∧ c6AfterConfirm.profileName = []
    ∧ c6AfterConfirm.profileProxy = ("none").toList
    ∧ c6AfterConfirm.profileType = ("none").toList
    ∧ c6AfterConfirm.profileFlags
        = ("--no-first-run --disable-features=RendererCodeIntegrity").toList
    ∧ c6AfterConfirm.selected = ("work").toList
    ∧ lookupKey c6AfterSave.profiles (("work").toList) = none
    ∧ lookupKey c6AfterSave.profiles (("personal").toList)
        = some ⟨("personal").toList, ("none").toList, ("none").toList,
            ("--no-first-run --disable-features=RendererCodeIntegrity").toList⟩ := by
  refine ⟨?_, ?_, ?_, ?_, ?_, ?_, ?_, ?_⟩ <;> decide

/-- C7 as stated is false: with the launch operation failing, `main` still
reaches `os.Exit(0)`, so the exit status is not non-zero exactly on
operation failure. -/
theorem c7_counterexample : ¬ c7ClaimProp := by
  intro h
  exact (h Cmd.launch CleanOutcome.success false).mpr rfl rfl

/-- C7 amended: a non-interactive run exits non-zero exactly when the
subcommand is `clean` and a removal error occurred; `launch` (even on
failure), `list`, `version` and `help` always exit zero. -/
theorem c7_amended (cmd : Cmd) (outcome : CleanOutcome) (launchOk : Bool) :
    mainExitCode cmd outcome launchOk ≠ 0
      ↔ (cmd = Cmd.clean ∧ outcome = CleanOutcome.removeError) := by
  cases cmd <;> cases outcome <;> simp [mainExitCode, cleanExitCode]

/-- Witness for C7 amended: a removal error during `clean` exits
non-zero. -/
theorem c7_amended_witness :
    mainExitCode Cmd.clean CleanOutcome.removeError true ≠ 0 :=
  (c7_amended Cmd.clean CleanOutcome.removeError true).mpr ⟨rfl, rfl⟩

/-- C9 as stated is false: `load` can insert an entry whose name is the
empty string, from a data line beginning with `|`. -/
theorem c9_counterexample :
    loadProfilesFromData (("|a|b|c\n").toList) []
      = [([], ⟨[], ("a").toList, ("b").toList, ("c").toList⟩)] := by decide

/-- C9 amended: load preserves key uniqueness and key/name consistency, and
the edit/add upsert and the confirmed delete preserve the full invariant
(unique, non-empty names matching their keys); load alone may insert an
empty name when a store line has an empty first field. -/
theorem c9_amended :
    (∀ (data : GoStr) (m : List (GoStr × Profile)),
        KeysInv m → KeysInv (loadProfilesFromData data m))
    ∧ (∀ cm : CM, NamesInv cm.profiles → NamesInv (saveEditedProfile cm).profiles)
    ∧ (∀ cm : CM, NamesInv cm.profiles → NamesInv (confirmDeleteYes cm).profiles) := by
  refine ⟨?_, ?_, ?_⟩
  · intro data m h
    exact keysInv_foldl_load (goSplit '\n' data) m h
  · intro cm h
    exact saveEditedProfile_namesInv cm h
  · intro cm h
    exact namesInv_removeKey h

/-- Witness for C9 amended: adding a profile to a concrete store preserves
the invariant. -/
theorem c9_amended_witness : NamesInv (saveEditedProfile c9ExampleState).profiles :=
  c9_amended.2.1 c9ExampleState (by decide)

end Launchium
